import Mathlib

/-!
Verification of the frame-navigation and response-translation layer of an
MPEG-audio decoding library (src/lib.rs).

The codec engine (minimp3, reached through generated foreign bindings) is
external to the verified core; it is modelled abstractly as a deterministic
state-transition function `Engine`.  All integer quantities that are C `int`
in the source are modelled as `Int`, with the Rust casts `as usize` / `as u32`
made explicit (`intAsUsize`, `intAsU32`).  Byte slices are `List UInt8`,
sample buffers are `List Sample`, and the stream's suffix pointer is an
explicit cursor offset `pos` into the unchanging `source_copy` (the suffix
slice of the source is recovered as `source_copy.drop pos`).
-/

set_option maxRecDepth 4000

namespace Rmp3

/-- One PCM sample value.  In the source this is `i16` (or `f32` behind a
feature flag); only the payload values matter to the control flow verified
here, so `Int` is used. -/
abbrev Sample := Int

/-- Modelled from the spec: the codec engine's maximum samples-per-frame
(`MINIMP3_MAX_SAMPLES_PER_FRAME` from the generated bindings, which are not
part of the core source; the spec fixes the PCM buffer capacity to this). -/
def MAX_SAMPLES_PER_FRAME : Nat := 2304

/-- Frame metadata out-parameter of the engine (`ffi::mp3dec_frame_info_t`).
Every field is a C `int`. -/
structure mp3dec_frame_info_t where
  frame_bytes : Int
  frame_offset : Int
  channels : Int
  hz : Int
  layer : Int
  bitrate_kbps : Int
deriving DecidableEq

/-- Rust `as usize` applied to a C `int` on a 64-bit target: sign-extend and
reinterpret, i.e. reduce modulo 2^64. -/
def intAsUsize (i : Int) : Nat := (i % (2 : Int) ^ 64).toNat

/-- Rust `as u32` applied to a C `int`: reduce modulo 2^32. -/
def intAsU32 (i : Int) : Nat := (i % (2 : Int) ^ 32).toNat

/-- PCM frame data yielded by a decoder (struct `Samples` of the source). -/
structure Samples where
  bitrate : Nat
  channels : Nat
  mpeg_layer : Nat
  sample_rate : Nat
  bytes_consumed : Nat
  source : List UInt8
  samples : List Sample
  sample_count : Nat
deriving DecidableEq

/-- Audio or miscellaneous data in a frame (enum `Frame` of the source). -/
inductive Frame where
  | Audio (s : Samples)
  | Unknown (bytes_consumed : Nat) (source : List UInt8)
deriving DecidableEq

/-- Unit error type representing insufficient data in the input slice. -/
inductive InsufficientData where
  | insufficientData
deriving DecidableEq

/-- Total bytes consumed reported by a frame, for either variant. -/
def Frame.bytesConsumed : Frame → Nat
  | .Audio s => s.bytes_consumed
  | .Unknown bc _ => bc

/-- Source byte range carried by a frame, for either variant. -/
def Frame.source : Frame → List UInt8
  | .Audio s => s.source
  | .Unknown _ src => src

/-- Decidable equality for the result type, used by concrete evaluations. -/
instance instDecEqExcept {ε α : Type} [DecidableEq ε] [DecidableEq α] :
    DecidableEq (Except ε α) := fun a b =>
  match a, b with
  | .ok x, .ok y =>
      if h : x = y then .isTrue (congrArg Except.ok h)
      else .isFalse (fun he => h (by injection he))
  | .error x, .error y =>
      if h : x = y then .isTrue (congrArg Except.error h)
      else .isFalse (fun he => h (by injection he))
  | .ok _, .error _ => .isFalse (fun he => by injection he)
  | .error _, .ok _ => .isFalse (fun he => by injection he)

/-- Boolean success test on a result (Rust `Result::is_ok`). -/
def exceptOk {ε α : Type} : Except ε α → Bool
  | .ok _ => true
  | .error _ => false

/-- Function `data_len_safe` of the source: clamp a length to `c_int::MAX`
before handing it to the engine. -/
def data_len_safe (len : Nat) : Nat := min len (2 ^ 31 - 1)

/-- The part of the input the engine can actually see: its first
`data_len_safe` bytes. -/
def engineInput (data : List UInt8) : List UInt8 := data.take (data_len_safe data.length)

/-- Function `source_slice` of the source:
`data.get_unchecked(frame_offset as usize .. frame_bytes as usize)`. -/
def source_slice (data : List UInt8) (frame_recv : mp3dec_frame_info_t) : List UInt8 :=
  (data.take (intAsUsize frame_recv.frame_bytes)).drop (intAsUsize frame_recv.frame_offset)

/-- Function `translate_response` of the source: map the engine's raw result
(`samples` return value and `frame_recv` out-parameter) plus the original
input slice to a `Frame` or error, with the caller-supplied accessor `pcm_f`
producing the sample view. -/
def translate_response (frame_recv : mp3dec_frame_info_t) (samples : Int)
    (source : List UInt8) (pcm_f : Nat → List Sample) :
    Except InsufficientData Frame :=
  if samples ≠ 0 then
    Except.ok (Frame.Audio {
      bitrate := intAsU32 frame_recv.bitrate_kbps,
      channels := intAsU32 frame_recv.channels,
      mpeg_layer := intAsU32 frame_recv.layer,
      sample_rate := intAsU32 frame_recv.hz,
      bytes_consumed := intAsUsize frame_recv.frame_bytes,
      source := source_slice source frame_recv,
      samples := pcm_f (intAsUsize samples * intAsUsize frame_recv.channels),
      sample_count := intAsUsize samples })
  else if frame_recv.frame_bytes ≠ 0 then
    Except.ok (Frame.Unknown (intAsUsize frame_recv.frame_bytes)
      (source_slice source frame_recv))
  else
    Except.error InsufficientData.insufficientData

/-- Modelled from the spec: the outcome of one engine invocation
(`mp3dec_decode_frame`).  `samples` is the C `int` return value, `info` the
out-parameter, `pcmWrite` the sample values the engine writes at the start of
the output buffer when one is supplied, `state` the updated opaque decoder
state. -/
structure EngineOut (σ : Type) where
  samples : Int
  info : mp3dec_frame_info_t
  pcmWrite : List Sample
  state : σ

/-- Modelled from the spec: the opaque codec engine of §6 (`mp3dec_init` plus
`mp3dec_decode_frame`), a deterministic stateful decode primitive.  The `Bool`
argument records whether an output buffer was supplied (pcm pointer
non-null). -/
structure Engine (σ : Type) where
  init : σ
  decode_frame : σ → List UInt8 → Bool → EngineOut σ

/-- Overwrite the start of buffer `b` with the engine-written values `w`. -/
def bufWrite (b w : List Sample) : List Sample := w ++ b.drop w.length

/-- Constructor `DecoderBuf::new`: a zero-initialized buffer holding
`MAX_SAMPLES_PER_FRAME` samples. -/
def DecoderBuf.new : List Sample := List.replicate MAX_SAMPLES_PER_FRAME (0 : Sample)

/-- Method `Decoder::dec`: invoke the engine once over `data` (clamped by
`data_len_safe`), with an optional output buffer, then translate.  Returns the
translated response, the updated engine state, and the updated buffer. -/
def Decoder.dec {σ : Type} (E : Engine σ) (d : σ) (data : List UInt8)
    (buf : Option (List Sample)) :
    Except InsufficientData Frame × σ × Option (List Sample) :=
  (translate_response (E.decode_frame d (engineInput data) buf.isSome).info
      (E.decode_frame d (engineInput data) buf.isSome).samples data
      (fun points =>
        match buf.map (fun b => bufWrite b (E.decode_frame d (engineInput data) buf.isSome).pcmWrite) with
        | some b => b.take points
        | none => []),
   (E.decode_frame d (engineInput data) buf.isSome).state,
   buf.map (fun b => bufWrite b (E.decode_frame d (engineInput data) buf.isSome).pcmWrite))

/-- Method `Decoder::peek`: `dec` with no output buffer. -/
def Decoder.peek {σ : Type} (E : Engine σ) (d : σ) (data : List UInt8) :
    Except InsufficientData Frame × σ :=
  ((Decoder.dec E d data none).1, (Decoder.dec E d data none).2.1)

/-- Method `Decoder::next`: `dec` writing into the caller-supplied buffer. -/
def Decoder.next {σ : Type} (E : Engine σ) (d : σ) (data : List UInt8)
    (buf : List Sample) :
    Except InsufficientData Frame × σ × List Sample :=
  ((Decoder.dec E d data (some buf)).1, (Decoder.dec E d data (some buf)).2.1,
   ((Decoder.dec E d data (some buf)).2.2).getD buf)

/-- State of a `DecoderStream`: opaque engine state, internal PCM buffer,
cached peek length, cursor offset, and the full source buffer.  The Rust
suffix slice `source` is `source_copy.drop pos`; the Rust pointer-difference
`position()` is `pos`. -/
structure DecoderStream (σ : Type) where
  decoder : σ
  decoder_buf : List Sample
  peek_cache_len : Option Nat
  pos : Nat
  source_copy : List UInt8
deriving DecidableEq

/-- The stream's current suffix of the source buffer (field `source` of the
Rust struct). -/
def DecoderStream.source {σ : Type} (st : DecoderStream σ) : List UInt8 :=
  st.source_copy.drop st.pos

/-- Method `DecoderStream::position`. -/
def DecoderStream.position {σ : Type} (st : DecoderStream σ) : Nat := st.pos

/-- Constructor `DecoderStream::new`.  The internal PCM buffer is created with
`MaybeUninit::uninit().assume_init()`, i.e. it is NOT initialized; its
arbitrary initial contents are the parameter `junk`. -/
def DecoderStream.new {σ : Type} (E : Engine σ) (source : List UInt8)
    (junk : List Sample) : DecoderStream σ :=
  { decoder := E.init, decoder_buf := junk, peek_cache_len := none,
    pos := 0, source_copy := source }

/-- The engine invocation performed by `DecoderStream::next` (pcm pointer is
the internal buffer, hence non-null). -/
def DecoderStream.nextOut {σ : Type} (E : Engine σ) (st : DecoderStream σ) : EngineOut σ :=
  E.decode_frame st.decoder (engineInput st.source) true

/-- The engine invocation performed by `DecoderStream::peek` (null pcm
pointer). -/
def DecoderStream.peekOut {σ : Type} (E : Engine σ) (st : DecoderStream σ) : EngineOut σ :=
  E.decode_frame st.decoder (engineInput st.source) false

/-- Method `DecoderStream::next`: clear the peek-cache, decode at the current
suffix into the internal buffer, translate, and on success advance the cursor
by the reported `frame_bytes`. -/
def DecoderStream.next {σ : Type} (E : Engine σ) (st : DecoderStream σ) :
    Except InsufficientData Frame × DecoderStream σ :=
  match translate_response (DecoderStream.nextOut E st).info
      (DecoderStream.nextOut E st).samples st.source
      (fun points => (bufWrite st.decoder_buf (DecoderStream.nextOut E st).pcmWrite).take points) with
  | .ok f =>
      (Except.ok f,
       { st with peek_cache_len := none,
                 decoder := (DecoderStream.nextOut E st).state,
                 decoder_buf := bufWrite st.decoder_buf (DecoderStream.nextOut E st).pcmWrite,
                 pos := st.pos + intAsUsize (DecoderStream.nextOut E st).info.frame_bytes })
  | .error e =>
      (Except.error e,
       { st with peek_cache_len := none,
                 decoder := (DecoderStream.nextOut E st).state,
                 decoder_buf := bufWrite st.decoder_buf (DecoderStream.nextOut E st).pcmWrite })

/-- Method `DecoderStream::peek`: clear the peek-cache, parse at the current
suffix with a null output pointer, translate with an always-empty sample view,
record the resulting `bytes_consumed` in the peek-cache, and do not move the
cursor. -/
def DecoderStream.peek {σ : Type} (E : Engine σ) (st : DecoderStream σ) :
    Except InsufficientData Frame × DecoderStream σ :=
  match translate_response (DecoderStream.peekOut E st).info
      (DecoderStream.peekOut E st).samples st.source (fun _ => []) with
  | .ok (.Audio s) =>
      (Except.ok (Frame.Audio s),
       { st with peek_cache_len := some s.bytes_consumed,
                 decoder := (DecoderStream.peekOut E st).state })
  | .ok (.Unknown bc src) =>
      (Except.ok (Frame.Unknown bc src),
       { st with peek_cache_len := some bc,
                 decoder := (DecoderStream.peekOut E st).state })
  | .error e =>
      (Except.error e,
       { st with peek_cache_len := none,
                 decoder := (DecoderStream.peekOut E st).state })

/-- Method `DecoderStream::set_position`: clamp to the buffer length and move
the cursor; nothing else in the state is touched. -/
def DecoderStream.set_position {σ : Type} (st : DecoderStream σ) (position : Nat) :
    DecoderStream σ :=
  { st with pos := min st.source_copy.length position }

/-- Method `DecoderStream::skip`: take the cached peek length if present
(leaving the cache empty) and advance by it; otherwise perform an internal
peek — which itself refills the cache — and advance by the reported
`bytes_consumed`, propagating a peek failure. -/
def DecoderStream.skip {σ : Type} (E : Engine σ) (st : DecoderStream σ) :
    Except InsufficientData Unit × DecoderStream σ :=
  match st.peek_cache_len with
  | some offset =>
      (Except.ok (), { st with peek_cache_len := none, pos := st.pos + offset })
  | none =>
      match DecoderStream.peek E { st with peek_cache_len := none } with
      | (.ok f, st1) => (Except.ok (), { st1 with pos := st1.pos + Frame.bytesConsumed f })
      | (.error e, st1) => (Except.error e, st1)

/-- One successful `next` step of a run: cursor before, engine-reported
metadata, translated frame, cursor after. -/
structure RunStep where
  posBefore : Nat
  info : mp3dec_frame_info_t
  frame : Frame
  posAfter : Nat
deriving DecidableEq

/-- Consumed span of a run step, as offsets into the original buffer. -/
def RunStep.span (s : RunStep) : Nat × Nat := (s.posBefore, s.posAfter)

/-- Repeatedly call `DecoderStream::next` until the first failure (or until
the fuel runs out), collecting each successful step. -/
def DecoderStream.runNext {σ : Type} (E : Engine σ) :
    Nat → DecoderStream σ → List RunStep × DecoderStream σ
  | 0, st => ([], st)
  | fuel + 1, st =>
      match DecoderStream.next E st with
      | (.ok f, st1) =>
          ((⟨st.pos, (DecoderStream.nextOut E st).info, f, st1.pos⟩ : RunStep) ::
             (DecoderStream.runNext E fuel st1).1,
           (DecoderStream.runNext E fuel st1).2)
      | (.error _, st1) => ([], st1)

/-- Engine trust contract of §6: the reported `frame_offset` and `frame_bytes`
lie within `[0, input_len]` (and are ordered), for every invocation. -/
def mp3dec_frame_info_t.inContract (i : mp3dec_frame_info_t) (inputLen : Nat) : Prop :=
  0 ≤ i.frame_offset ∧ i.frame_offset ≤ i.frame_bytes ∧ i.frame_bytes ≤ (inputLen : Int)

/-- An engine all of whose invocations respect the §6 offset contract. -/
def Engine.offsetsOK {σ : Type} (E : Engine σ) : Prop :=
  ∀ s input fl, ((E.decode_frame s input fl).info).inContract input.length

/-- Metadata determinism of a conforming engine: the sample count and frame
metadata reported for a given input do not depend on the opaque continuity
state (for minimp3 they are computed from the input bytes alone). -/
def Engine.metaDet {σ : Type} (E : Engine σ) : Prop :=
  ∀ s₁ s₂ input fl,
    (E.decode_frame s₁ input fl).samples = (E.decode_frame s₂ input fl).samples ∧
    (E.decode_frame s₁ input fl).info = (E.decode_frame s₂ input fl).info

/-- Validity of the peek-cache at a state: any cached length equals the
`bytes_consumed` that `peek` at this state would report (in particular `peek`
would succeed). -/
def DecoderStream.cacheValid {σ : Type} (E : Engine σ) (st : DecoderStream σ) : Prop :=
  ∀ l, st.peek_cache_len = some l →
    ∃ f, (DecoderStream.peek E st).1 = Except.ok f ∧ Frame.bytesConsumed f = l

/-- Frame extracted from a successful result (used by concrete evaluations). -/
def okFrame : Except InsufficientData Frame → Frame
  | .ok f => f
  | .error _ => Frame.Unknown 0 []

/-- The source range of a successful result equals `source_slice` of the
given input for the given metadata. -/
def okSourceIs (r : Except InsufficientData Frame) (data : List UInt8)
    (i : mp3dec_frame_info_t) : Prop :=
  ∀ f, r = Except.ok f → Frame.source f = source_slice data i

/-- A list of half-open spans chains from `a` to `b`: each span starts where
the previous one ended, the first at `a`, the last ending at `b`. -/
def spansChain : Nat → Nat → List (Nat × Nat) → Prop
  | a, b, [] => a = b
  | a, b, p :: rest => p.1 = a ∧ spansChain p.2 b rest

/-- Test engine: unconditionally reports one 2-byte mono frame and writes one
sample; the opaque state is trivial. -/
def constFrameE : Engine Unit :=
  ⟨(), fun _ _ _ => ⟨1, ⟨2, 0, 1, 44100, 3, 128⟩, [9], ()⟩⟩

/-- Test engine respecting the §6 offset contract: reports a 2-byte mono
frame when at least 2 bytes of input remain, and failure otherwise. -/
def boundedFrameE : Engine Unit :=
  ⟨(), fun _ input _ =>
    if 2 ≤ input.length then ⟨1, ⟨2, 0, 1, 44100, 3, 128⟩, [9], ()⟩
    else ⟨0, ⟨0, 0, 0, 0, 0, 0⟩, [], ()⟩⟩

/-- Test source buffer of ten bytes. -/
def wSrc : List UInt8 := [1, 2, 3, 4, 5, 6, 7, 8, 9, 10]

/-- Fresh test stream over `wSrc` driven by `constFrameE`. -/
def wStream : DecoderStream Unit := DecoderStream.new constFrameE wSrc []

/-- Test metadata whose `frame_offset` is non-zero: frame bytes 5, offset 2. -/
def cexInfo3 : mp3dec_frame_info_t := ⟨5, 2, 1, 44100, 3, 128⟩

/-- Test source buffer of ten distinct bytes. -/
def cexSrc3 : List UInt8 := [0, 1, 2, 3, 4, 5, 6, 7, 8, 9]

/-- Test engine whose first call reports a decoded frame with one byte of
leading garbage (`frame_offset = 1`, `frame_bytes = 3`) and whose later calls
report insufficient data; the opaque state counts calls. -/
def cexE4 : Engine Nat :=
  ⟨0, fun st _ _ =>
    if st = 0 then ⟨1, ⟨3, 1, 1, 44100, 3, 128⟩, [5], 1⟩
    else ⟨0, ⟨0, 0, 0, 0, 0, 0⟩, [], st + 1⟩⟩

/-- Test source buffer of three bytes for the garbage-offset run. -/
def cexSrc4 : List UInt8 := [10, 11, 12]

/-- Test engine whose first call reports a 2-byte frame and whose later calls
report insufficient data. -/
def cexE6 : Engine Nat :=
  ⟨0, fun st _ _ =>
    if st = 0 then ⟨1, ⟨2, 0, 1, 44100, 3, 128⟩, [5], 1⟩
    else ⟨0, ⟨0, 0, 0, 0, 0, 0⟩, [], st + 1⟩⟩

/-- Test source buffer of two bytes. -/
def cexSrc6 : List UInt8 := [1, 2]

/-- Stream state reached from a fresh stream over `cexSrc6` by one `skip`
call: the cursor sits at the end of the buffer, yet the cache set by the
reentrant peek inside `skip` is still present. -/
def cexSt6 : DecoderStream Nat :=
  (DecoderStream.skip cexE6 (DecoderStream.new cexE6 cexSrc6 [])).2

/-- Test engine reporting a 2-byte frame on its first call, a 3-byte frame on
its second, and insufficient data afterwards. -/
def cexE7 : Engine Nat :=
  ⟨0, fun st _ _ =>
    if st = 0 then ⟨1, ⟨2, 0, 1, 44100, 3, 128⟩, [5], 1⟩
    else if st = 1 then ⟨1, ⟨3, 0, 1, 44100, 3, 128⟩, [5], 2⟩
    else ⟨0, ⟨0, 0, 0, 0, 0, 0⟩, [], st + 1⟩⟩

/-- Test source buffer of five bytes. -/
def cexSrc7 : List UInt8 := [1, 2, 3, 4, 5]

/-- Fresh test stream over `cexSrc7` driven by `cexE7`. -/
def cexSt7 : DecoderStream Nat := DecoderStream.new cexE7 cexSrc7 []

/-- Stream state with a populated peek-cache (`some 2`) at position 0,
reached by one `peek` call on a fresh stream. -/
def cexSt8 : DecoderStream Unit :=
  (DecoderStream.peek constFrameE (DecoderStream.new constFrameE wSrc [])).2

/-- Fresh test stream whose internal buffer is the zero-initialized
`DecoderBuf`. -/
def wStream9 : DecoderStream Unit := DecoderStream.new constFrameE wSrc DecoderBuf.new

/-- Arbitrary non-zero junk of buffer capacity, standing for uninitialized
memory. -/
def wJunk : List Sample := List.replicate MAX_SAMPLES_PER_FRAME 7

/-- Fresh test stream whose internal buffer starts as `wJunk`. -/
def wStream10 : DecoderStream Unit := DecoderStream.new constFrameE wSrc wJunk

/-- Non-zero buffer contents used to exhibit a stream buffer that is not
zero-initialized. -/
def cexJunk : List Sample := List.replicate MAX_SAMPLES_PER_FRAME 1

/-- Frame metadata record produced by a decoding `next` over `wSrc` with
`constFrameE`: one sample, one channel, the written sample `[9]` exposed. -/
def wSd9 : Samples := ⟨128, 1, 3, 44100, 2, [1, 2], [9], 1⟩

/-- Frame metadata record produced by a peeking call over `wSrc` with
`constFrameE`: empty sample view, `sample_count` still 1. -/
def wSdPeek : Samples := ⟨128, 1, 3, 44100, 2, [1, 2], [], 1⟩

/-- Frame metadata record produced by `next` on `wStream10` (junk-filled
buffer): the view `[9]` is the engine-written value, not the junk. -/
def wSd10 : Samples := ⟨128, 1, 3, 44100, 2, [1, 2], [9], 1⟩

/-! Shared lemmas about the response translator. -/

theorem translate_spec (i : mp3dec_frame_info_t) (s : Int) (src : List UInt8)
    (pf : Nat → List Sample) :
    (s ≠ 0 → translate_response i s src pf =
      Except.ok (Frame.Audio ⟨intAsU32 i.bitrate_kbps, intAsU32 i.channels,
        intAsU32 i.layer, intAsU32 i.hz, intAsUsize i.frame_bytes,
        source_slice src i, pf (intAsUsize s * intAsUsize i.channels),
        intAsUsize s⟩)) ∧
    (s = 0 → i.frame_bytes ≠ 0 → translate_response i s src pf =
      Except.ok (Frame.Unknown (intAsUsize i.frame_bytes) (source_slice src i))) ∧
    (s = 0 → i.frame_bytes = 0 → translate_response i s src pf =
      Except.error InsufficientData.insufficientData) := by
  refine ⟨fun h => ?_, fun h1 h2 => ?_, fun h1 h2 => ?_⟩ <;>
    simp [translate_response, *]

theorem translate_ok_bytesConsumed {i : mp3dec_frame_info_t} {s : Int}
    {src : List UInt8} {pf : Nat → List Sample} {f : Frame}
    (h : translate_response i s src pf = Except.ok f) :
    Frame.bytesConsumed f = intAsUsize i.frame_bytes := by
  by_cases hs : s = 0
  · by_cases hb : i.frame_bytes = 0
    · rw [(translate_spec i s src pf).2.2 hs hb] at h
      cases h
    · rw [(translate_spec i s src pf).2.1 hs hb] at h
      injection h with h2
      subst h2
      rfl
  · rw [(translate_spec i s src pf).1 hs] at h
    injection h with h2
    subst h2
    rfl

theorem translate_ok_source {i : mp3dec_frame_info_t} {s : Int}
    {src : List UInt8} {pf : Nat → List Sample} {f : Frame}
    (h : translate_response i s src pf = Except.ok f) :
    Frame.source f = source_slice src i := by
  by_cases hs : s = 0
  · by_cases hb : i.frame_bytes = 0
    · rw [(translate_spec i s src pf).2.2 hs hb] at h
      cases h
    · rw [(translate_spec i s src pf).2.1 hs hb] at h
      injection h with h2
      subst h2
      rfl
  · rw [(translate_spec i s src pf).1 hs] at h
    injection h with h2
    subst h2
    rfl

theorem translate_ok_audio_fields {i : mp3dec_frame_info_t} {s : Int}
    {src : List UInt8} {pf : Nat → List Sample} {sd : Samples}
    (h : translate_response i s src pf = Except.ok (Frame.Audio sd)) :
    sd.samples = pf (intAsUsize s * intAsUsize i.channels) ∧
    sd.sample_count = intAsUsize s ∧
    sd.channels = intAsU32 i.channels ∧
    sd.bytes_consumed = intAsUsize i.frame_bytes := by
  by_cases hs : s = 0
  · by_cases hb : i.frame_bytes = 0
    · rw [(translate_spec i s src pf).2.2 hs hb] at h
      cases h
    · rw [(translate_spec i s src pf).2.1 hs hb] at h
      injection h with h2
      cases h2
  · rw [(translate_spec i s src pf).1 hs] at h
    injection h with h2
    injection h2 with h3
    subst h3
    exact ⟨rfl, rfl, rfl, rfl⟩

/-- C1: for every engine result (sample count `s`, frame info with
`frame_bytes`) and input slice, `translate_response` follows the strict
three-way precedence: `s ≠ 0` yields `Ok(Frame::Audio)` with that frame's
metadata regardless of `frame_bytes`; otherwise `frame_bytes ≠ 0` yields
`Ok(Frame::Unknown)` with `bytes_consumed = frame_bytes`; otherwise the
result is `Err(InsufficientData)`. -/
theorem C1_translate_response_precedence (i : mp3dec_frame_info_t) (s : Int)
    (src : List UInt8) (pf : Nat → List Sample) :
    (s ≠ 0 → translate_response i s src pf =
      Except.ok (Frame.Audio ⟨intAsU32 i.bitrate_kbps, intAsU32 i.channels,
        intAsU32 i.layer, intAsU32 i.hz, intAsUsize i.frame_bytes,
        source_slice src i, pf (intAsUsize s * intAsUsize i.channels),
        intAsUsize s⟩)) ∧
    (s = 0 → i.frame_bytes ≠ 0 → translate_response i s src pf =
      Except.ok (Frame.Unknown (intAsUsize i.frame_bytes) (source_slice src i))) ∧
    (s = 0 → i.frame_bytes = 0 → translate_response i s src pf =
      Except.error InsufficientData.insufficientData) :=
  translate_spec i s src pf

/-- C1 witness: the precedence theorem evaluated at a concrete engine result
with both a non-zero sample count and a non-zero `frame_bytes`: the audio
branch wins. -/
theorem C1_translate_response_precedence_witness :
    translate_response cexInfo3 4 cexSrc3 (fun _ => []) =
      Except.ok (Frame.Audio ⟨intAsU32 cexInfo3.bitrate_kbps, intAsU32 cexInfo3.channels,
        intAsU32 cexInfo3.layer, intAsU32 cexInfo3.hz, intAsUsize cexInfo3.frame_bytes,
        source_slice cexSrc3 cexInfo3, [], intAsUsize 4⟩) :=
  (C1_translate_response_precedence cexInfo3 4 cexSrc3 (fun _ => [])).1 (by decide)

/-! Shared characterization lemmas for the stream operations. -/

theorem next_fst {σ : Type} (E : Engine σ) (st : DecoderStream σ) :
    (DecoderStream.next E st).1 =
      translate_response (DecoderStream.nextOut E st).info
        (DecoderStream.nextOut E st).samples st.source
        (fun points =>
          (bufWrite st.decoder_buf (DecoderStream.nextOut E st).pcmWrite).take points) := by
  unfold DecoderStream.next
  split <;> rename_i heq <;> simp [heq]

theorem next_snd_cache {σ : Type} (E : Engine σ) (st : DecoderStream σ) :
    (DecoderStream.next E st).2.peek_cache_len = none := by
  unfold DecoderStream.next
  split <;> rfl

theorem next_snd_source_copy {σ : Type} (E : Engine σ) (st : DecoderStream σ) :
    (DecoderStream.next E st).2.source_copy = st.source_copy := by
  unfold DecoderStream.next
  split <;> rfl

theorem next_snd_pos {σ : Type} (E : Engine σ) (st : DecoderStream σ) :
    (DecoderStream.next E st).2.pos =
      if exceptOk (DecoderStream.next E st).1 then
        st.pos + intAsUsize (DecoderStream.nextOut E st).info.frame_bytes
      else st.pos := by
  unfold DecoderStream.next
  split <;> rfl

theorem next_pos_of_ok {σ : Type} {E : Engine σ} {st : DecoderStream σ} {f : Frame}
    (h : (DecoderStream.next E st).1 = Except.ok f) :
    (DecoderStream.next E st).2.pos = st.pos + Frame.bytesConsumed f := by
  have htr : translate_response (DecoderStream.nextOut E st).info
      (DecoderStream.nextOut E st).samples st.source
      (fun points =>
        (bufWrite st.decoder_buf (DecoderStream.nextOut E st).pcmWrite).take points) =
      Except.ok f := by
    rw [← next_fst]
    exact h
  rw [next_snd_pos, h, translate_ok_bytesConsumed htr]
  rfl

theorem next_pos_of_err {σ : Type} {E : Engine σ} {st : DecoderStream σ}
    {e : InsufficientData} (h : (DecoderStream.next E st).1 = Except.error e) :
    (DecoderStream.next E st).2.pos = st.pos := by
  rw [next_snd_pos, h]
  rfl

/-- C2: for every stream state and every engine, `next()` clears the
peek-cache, decodes at the current cursor suffix, and advances the cursor by
the returned frame's `bytes_consumed` exactly when the result is `Ok`; on
`Err(InsufficientData)` the position is unchanged. -/
theorem C2_next_advance (σ : Type) (E : Engine σ) (st : DecoderStream σ) :
    ((DecoderStream.next E st).2.peek_cache_len = none) ∧
    ((DecoderStream.next E st).1 =
      translate_response (DecoderStream.nextOut E st).info
        (DecoderStream.nextOut E st).samples st.source
        (fun points =>
          (bufWrite st.decoder_buf (DecoderStream.nextOut E st).pcmWrite).take points)) ∧
    (∀ f, (DecoderStream.next E st).1 = Except.ok f →
      (DecoderStream.next E st).2.position = st.position + Frame.bytesConsumed f) ∧
    (∀ e, (DecoderStream.next E st).1 = Except.error e →
      (DecoderStream.next E st).2.position = st.position) :=
  ⟨next_snd_cache E st, next_fst E st,
   fun _ h => next_pos_of_ok h, fun _ h => next_pos_of_err h⟩

/-- C2 witness: from a fresh stream over ten bytes with an engine that
reports a 2-byte frame, `next()` clears the cache and advances the position
from 0 to 2. -/
theorem C2_next_advance_witness :
    ((DecoderStream.next constFrameE wStream).2.peek_cache_len = none) ∧
    ((DecoderStream.next constFrameE wStream).2.position = wStream.position + 2) :=
  ⟨(C2_next_advance Unit constFrameE wStream).1,
   (C2_next_advance Unit constFrameE wStream).2.2.1 (okFrame (DecoderStream.next constFrameE wStream).1) (by decide)⟩

theorem peek_fst {σ : Type} (E : Engine σ) (st : DecoderStream σ) :
    (DecoderStream.peek E st).1 =
      translate_response (DecoderStream.peekOut E st).info
        (DecoderStream.peekOut E st).samples st.source (fun _ => []) := by
  unfold DecoderStream.peek
  split <;> rename_i heq <;> simp [heq]

theorem peek_snd_pos {σ : Type} (E : Engine σ) (st : DecoderStream σ) :
    (DecoderStream.peek E st).2.pos = st.pos := by
  unfold DecoderStream.peek
  split <;> rfl

theorem peek_snd_source_copy {σ : Type} (E : Engine σ) (st : DecoderStream σ) :
    (DecoderStream.peek E st).2.source_copy = st.source_copy := by
  unfold DecoderStream.peek
  split <;> rfl

theorem peek_snd_buf {σ : Type} (E : Engine σ) (st : DecoderStream σ) :
    (DecoderStream.peek E st).2.decoder_buf = st.decoder_buf := by
  unfold DecoderStream.peek
  split <;> rfl

theorem peek_snd_decoder {σ : Type} (E : Engine σ) (st : DecoderStream σ) :
    (DecoderStream.peek E st).2.decoder = (DecoderStream.peekOut E st).state := by
  unfold DecoderStream.peek
  split <;> rfl

theorem peek_snd_cache {σ : Type} (E : Engine σ) (st : DecoderStream σ) :
    (DecoderStream.peek E st).2.peek_cache_len =
      (match (DecoderStream.peek E st).1 with
       | .ok f => some (Frame.bytesConsumed f)
       | .error _ => none) := by
  unfold DecoderStream.peek
  split <;> rfl

theorem peek_source {σ : Type} (E : Engine σ) (st : DecoderStream σ) :
    (DecoderStream.peek E st).2.source = st.source := by
  unfold DecoderStream.source
  rw [peek_snd_pos, peek_snd_source_copy]

theorem peek_take {σ : Type} (E : Engine σ) (st : DecoderStream σ) (c : Option Nat) :
    DecoderStream.peek E { st with peek_cache_len := c } = DecoderStream.peek E st := rfl

/-- C5: for every stream state (with a conforming engine whose reported
metadata depends only on the input bytes, not on its opaque continuity
state), two consecutive `peek()` calls with nothing in between return
identical results — in particular identical metadata — and neither call moves
`position()`. -/
theorem C5_peek_idempotent (σ : Type) (E : Engine σ) (st : DecoderStream σ)
    (hdet : E.metaDet) :
    ((DecoderStream.peek E (DecoderStream.peek E st).2).1 = (DecoderStream.peek E st).1) ∧
    ((DecoderStream.peek E st).2.position = st.position) ∧
    ((DecoderStream.peek E (DecoderStream.peek E st).2).2.position = st.position) := by
  have hsrc : (DecoderStream.peek E st).2.source = st.source := peek_source E st
  have hout : (DecoderStream.peekOut E (DecoderStream.peek E st).2).samples =
      (DecoderStream.peekOut E st).samples ∧
      (DecoderStream.peekOut E (DecoderStream.peek E st).2).info =
      (DecoderStream.peekOut E st).info := by
    unfold DecoderStream.peekOut
    rw [hsrc]
    exact hdet (DecoderStream.peek E st).2.decoder st.decoder (engineInput st.source) false
  refine ⟨?_, peek_snd_pos E st, ?_⟩
  · rw [peek_fst, peek_fst, hsrc, hout.1, hout.2]
  · show (DecoderStream.peek E (DecoderStream.peek E st).2).2.pos = st.pos
    rw [peek_snd_pos, peek_snd_pos]

/-- C5 witness: the idempotence theorem evaluated on a fresh stream with a
concrete state-independent engine: both peeks agree and the position stays
at 0. -/
theorem C5_peek_idempotent_witness :
    ((DecoderStream.peek constFrameE (DecoderStream.peek constFrameE wStream).2).1 =
      (DecoderStream.peek constFrameE wStream).1) ∧
    ((DecoderStream.peek constFrameE wStream).2.position = wStream.position) ∧
    ((DecoderStream.peek constFrameE (DecoderStream.peek constFrameE wStream).2).2.position =
      wStream.position) :=
  C5_peek_idempotent Unit constFrameE wStream (fun _ _ _ _ => ⟨rfl, rfl⟩)

theorem set_position_spec {σ : Type} (st : DecoderStream σ) (n : Nat) :
    (st.set_position n).pos = min st.source_copy.length n ∧
    (st.set_position n).peek_cache_len = st.peek_cache_len ∧
    (st.set_position n).source_copy = st.source_copy ∧
    (st.set_position n).decoder = st.decoder := ⟨rfl, rfl, rfl, rfl⟩

/-- C8: evaluation of `set_position` on a state holding a peek-cache.  The
clamping half of the claim holds (position 100 on a 10-byte buffer clamps to
10), but `set_position` leaves the peek-cache untouched — here `some 2`
survives repositioning, where the claim requires `none` — and a following
`skip` advances from position 5 to 7 using the length cached at position 0. -/
theorem C8_set_position_keeps_cache :
    (cexSt8.peek_cache_len = some 2) ∧
    ((cexSt8.set_position 5).peek_cache_len = some 2) ∧
    ((cexSt8.set_position 5).position = 5) ∧
    ((cexSt8.set_position 100).position = 10) ∧
    ((DecoderStream.skip constFrameE (cexSt8.set_position 5)).2.position = 7) := by
  decide

/-- C7: evaluation exhibiting a reachable state that violates the cache
invariant.  From a fresh stream, one uncached `skip` peeks (filling the cache
with 2 for position 0) and then advances the cursor to 2 without clearing the
cache.  A `peek` at position 2 would report a 3-byte frame, yet a second
`skip` advances by the stale cached 2 — the cursor is advanced using a length
recorded for a different position. -/
theorem C7_stale_cache_after_skip :
    ((DecoderStream.skip cexE7 cexSt7).2.peek_cache_len = some 2) ∧
    ((DecoderStream.skip cexE7 cexSt7).2.position = 2) ∧
    (Frame.bytesConsumed
      (okFrame (DecoderStream.peek cexE7 (DecoderStream.skip cexE7 cexSt7).2).1) = 3) ∧
    ((DecoderStream.skip cexE7 (DecoderStream.skip cexE7 cexSt7).2).2.position = 4) := by
  decide

/-- C6 counterexample: `cexSt6` is reachable (one `skip` from a fresh stream
over a two-byte buffer) and still carries the stale cache `some 2` at the end
of the input.  There `skip()` succeeds — advancing past the end of the buffer
— while `peek()` at the same position reports `InsufficientData`, so `skip`
does not return success exactly when `peek` would. -/
theorem C6_counterexample :
    (cexSt6.peek_cache_len = some 2) ∧
    ((DecoderStream.skip cexE6 cexSt6).1 = Except.ok ()) ∧
    ((DecoderStream.peek cexE6 cexSt6).1 =
      Except.error InsufficientData.insufficientData) ∧
    ((DecoderStream.skip cexE6 cexSt6).2.position = 4) := by
  decide

theorem skip_of_cache {σ : Type} {E : Engine σ} {st : DecoderStream σ} {l : Nat}
    (h : st.peek_cache_len = some l) :
    DecoderStream.skip E st =
      (Except.ok (), { st with peek_cache_len := none, pos := st.pos + l }) := by
  unfold DecoderStream.skip
  rw [h]

theorem skip_of_nocache {σ : Type} {E : Engine σ} {st : DecoderStream σ}
    (h : st.peek_cache_len = none) :
    DecoderStream.skip E st =
      (match DecoderStream.peek E st with
       | (.ok f, st1) => (Except.ok (), { st1 with pos := st1.pos + Frame.bytesConsumed f })
       | (.error e, st1) => (Except.error e, st1)) := by
  unfold DecoderStream.skip
  rw [h, peek_take]

/-- C6 amended: for every stream state whose peek-cache, when present, is
valid (it equals the `bytes_consumed` that `peek` at this position reports,
and `peek` succeeds), `skip()` returns success exactly when `peek()` at the
same position would, the resulting position is the position before plus that
peek's `bytes_consumed` (on failure the position is unchanged), and when the
cache is present `skip` advances by the cached length without a second engine
call (the engine state is untouched) — the cached and uncached paths agree. -/
theorem C6_skip_peek_equiv (σ : Type) (E : Engine σ) (st : DecoderStream σ)
    (hv : DecoderStream.cacheValid E st) :
    (exceptOk (DecoderStream.skip E st).1 = exceptOk (DecoderStream.peek E st).1) ∧
    (∀ f, (DecoderStream.peek E st).1 = Except.ok f →
      (DecoderStream.skip E st).2.position = st.position + Frame.bytesConsumed f) ∧
    (∀ e, (DecoderStream.peek E st).1 = Except.error e →
      (DecoderStream.skip E st).2.position = st.position) ∧
    (∀ l, st.peek_cache_len = some l →
      (DecoderStream.skip E st).2.decoder = st.decoder ∧
      (DecoderStream.skip E st).2.position = st.position + l) := by
  cases hc : st.peek_cache_len with
  | some l =>
      obtain ⟨f0, hf0, hbc⟩ := hv l hc
      rw [skip_of_cache hc]
      refine ⟨by rw [hf0]; rfl, ?_, ?_, ?_⟩
      · intro f hf
        have hff : Except.ok f0 = Except.ok f := hf0.symm.trans hf
        injection hff with hff
        subst hff
        rw [← hbc]
        rfl
      · intro e he
        rw [hf0] at he
        cases he
      · intro l' hl'
        injection hl' with hl'
        subst hl'
        exact ⟨rfl, rfl⟩
  | none =>
      rw [skip_of_nocache hc]
      cases hpk : DecoderStream.peek E st with
      | mk r st1 =>
          have hst1 : st1.pos = st.pos := by
            have hp := peek_snd_pos E st
            rw [hpk] at hp
            exact hp
          cases r with
          | ok f =>
              refine ⟨rfl, ?_, ?_, ?_⟩
              · intro f' hf'
                have hf2 : (Except.ok f : Except InsufficientData Frame) = Except.ok f' := hf'
                injection hf2 with hf2
                subst hf2
                show st1.pos + Frame.bytesConsumed f = st.pos + Frame.bytesConsumed f
                rw [hst1]
              · intro e he
                have he2 : (Except.ok f : Except InsufficientData Frame) = Except.error e := he
                nomatch he2
              · intro l hl
                nomatch hl
          | error e =>
              refine ⟨rfl, ?_, ?_, ?_⟩
              · intro f' hf'
                have hf2 : (Except.error e : Except InsufficientData Frame) = Except.ok f' := hf'
                nomatch hf2
              · intro e' _
                exact hst1
              · intro l hl
                nomatch hl

/-- C6 witness: the equivalence theorem evaluated on a fresh stream (empty
cache, so validity is vacuous) with a concrete engine: skip succeeds exactly
as peek does and advances position 0 by the peeked frame's 2 bytes. -/
theorem C6_skip_peek_equiv_witness :
    (exceptOk (DecoderStream.skip constFrameE wStream).1 =
      exceptOk (DecoderStream.peek constFrameE wStream).1) ∧
    ((DecoderStream.skip constFrameE wStream).2.position = wStream.position + 2) :=
  ⟨(C6_skip_peek_equiv Unit constFrameE wStream (fun _ hl => nomatch hl)).1,
   (C6_skip_peek_equiv Unit constFrameE wStream (fun _ hl => nomatch hl)).2.1
     (okFrame (DecoderStream.peek constFrameE wStream).1) (by decide)⟩

theorem intAsUsize_eq_toNat {i : Int} (h0 : 0 ≤ i) (h1 : i < (2 : Int) ^ 64) :
    intAsUsize i = i.toNat := by
  unfold intAsUsize
  rw [Int.emod_eq_of_lt h0 h1]

/-- C3 counterexample: at the engine result `frame_offset = 2`,
`frame_bytes = 5`, sample count 1, over a ten-byte input, the returned frame
has `bytes_consumed = 5` and its source is bytes `[2, 5)` of the input
(`[2, 3, 4]`), which differs from the claimed range
`[frame_offset, frame_offset + bytes_consumed) = [2, 7)`. -/
theorem C3_counterexample :
    (exceptOk (translate_response cexInfo3 1 cexSrc3 (fun _ => [])) = true) ∧
    (Frame.bytesConsumed (okFrame (translate_response cexInfo3 1 cexSrc3 (fun _ => []))) = 5) ∧
    (Frame.source (okFrame (translate_response cexInfo3 1 cexSrc3 (fun _ => []))) = [2, 3, 4]) ∧
    (Frame.source (okFrame (translate_response cexInfo3 1 cexSrc3 (fun _ => []))) ≠
      (cexSrc3.take (intAsUsize cexInfo3.frame_offset +
        Frame.bytesConsumed (okFrame (translate_response cexInfo3 1 cexSrc3 (fun _ => []))))).drop
        (intAsUsize cexInfo3.frame_offset)) := by
  decide

theorem decoder_peek_fst {σ : Type} (E : Engine σ) (d : σ) (data : List UInt8) :
    (Decoder.peek E d data).1 =
      translate_response (E.decode_frame d (engineInput data) false).info
        (E.decode_frame d (engineInput data) false).samples data (fun _ => []) := rfl

theorem decoder_next_fst {σ : Type} (E : Engine σ) (d : σ) (data : List UInt8)
    (buf : List Sample) :
    (Decoder.next E d data buf).1 =
      translate_response (E.decode_frame d (engineInput data) true).info
        (E.decode_frame d (engineInput data) true).samples data
        (fun points =>
          (bufWrite buf (E.decode_frame d (engineInput data) true).pcmWrite).take points) := rfl

/-- C3 amended: every call returning a Frame (the translator itself, Decoder
peek/next, DecoderStream peek/next) yields a frame whose source is the byte
range `[frame_offset, frame_bytes)` of the input slice of that call (the
engine's `frame_bytes` is an absolute end offset equal to `bytes_consumed`,
not a length relative to `frame_offset`); under the §6 engine contract this
range is a contiguous, in-bounds sub-range of that slice. -/
theorem C3_source_range (σ : Type) (E : Engine σ) (st : DecoderStream σ) (d : σ)
    (data : List UInt8) (buf : List Sample) (i : mp3dec_frame_info_t) (s : Int)
    (pf : Nat → List Sample) (src : List UInt8) :
    okSourceIs (translate_response i s src pf) src i ∧
    okSourceIs (DecoderStream.peek E st).1 st.source (DecoderStream.peekOut E st).info ∧
    okSourceIs (DecoderStream.next E st).1 st.source (DecoderStream.nextOut E st).info ∧
    okSourceIs (Decoder.peek E d data).1 data (E.decode_frame d (engineInput data) false).info ∧
    okSourceIs (Decoder.next E d data buf).1 data (E.decode_frame d (engineInput data) true).info ∧
    (i.inContract src.length → i.frame_bytes < (2 : Int) ^ 31 →
      intAsUsize i.frame_offset ≤ intAsUsize i.frame_bytes ∧
      intAsUsize i.frame_bytes ≤ src.length ∧
      (source_slice src i).length = intAsUsize i.frame_bytes - intAsUsize i.frame_offset) := by
  refine ⟨fun f h => translate_ok_source h, ?_, ?_, ?_, ?_, ?_⟩
  · intro f h
    rw [peek_fst] at h
    exact translate_ok_source h
  · intro f h
    rw [next_fst] at h
    exact translate_ok_source h
  · intro f h
    rw [decoder_peek_fst] at h
    exact translate_ok_source h
  · intro f h
    rw [decoder_next_fst] at h
    exact translate_ok_source h
  · rintro ⟨h0, hob, hbl⟩ h31
    have hb0 : 0 ≤ i.frame_bytes := le_trans h0 hob
    have h64 : i.frame_bytes < (2 : Int) ^ 64 := lt_trans h31 (by norm_num)
    have ho64 : i.frame_offset < (2 : Int) ^ 64 := lt_of_le_of_lt hob h64
    have heo : intAsUsize i.frame_offset = i.frame_offset.toNat :=
      intAsUsize_eq_toNat h0 ho64
    have heb : intAsUsize i.frame_bytes = i.frame_bytes.toNat :=
      intAsUsize_eq_toNat hb0 h64
    have h1 : intAsUsize i.frame_offset ≤ intAsUsize i.frame_bytes := by
      rw [heo, heb]
      exact Int.toNat_le_toNat hob
    have h2 : intAsUsize i.frame_bytes ≤ src.length := by
      rw [heb]
      exact Int.toNat_le.mpr hbl
    refine ⟨h1, h2, ?_⟩
    simp only [source_slice, List.length_drop, List.length_take]
    omega

/-- C3 witness: the amended theorem evaluated at the concrete engine result
`frame_offset = 2`, `frame_bytes = 5` over a ten-byte buffer: the frame's
source is `source_slice` of the input, and the range is in bounds. -/
theorem C3_source_range_witness :
    (Frame.source (okFrame (translate_response cexInfo3 1 cexSrc3 (fun _ => []))) =
      source_slice cexSrc3 cexInfo3) ∧
    (intAsUsize cexInfo3.frame_offset ≤ intAsUsize cexInfo3.frame_bytes ∧
     intAsUsize cexInfo3.frame_bytes ≤ cexSrc3.length ∧
     (source_slice cexSrc3 cexInfo3).length =
       intAsUsize cexInfo3.frame_bytes - intAsUsize cexInfo3.frame_offset) :=
  ⟨(C3_source_range Unit constFrameE wStream () cexSrc3 [] cexInfo3 1 (fun _ => []) cexSrc3).1
      (okFrame (translate_response cexInfo3 1 cexSrc3 (fun _ => []))) (by decide),
   (C3_source_range Unit constFrameE wStream () cexSrc3 [] cexInfo3 1 (fun _ => []) cexSrc3).2.2.2.2.2
      (by refine ⟨by decide, by decide, by decide⟩) (by decide)⟩

theorem bufWrite_length {b w : List Sample} (h : w.length ≤ b.length) :
    (bufWrite b w).length = b.length := by
  simp [bufWrite]
  omega

theorem intAsUsize_eq_intAsU32 {i : Int} (h0 : 0 ≤ i) (h1 : i < (2 : Int) ^ 31) :
    intAsUsize i = intAsU32 i := by
  unfold intAsUsize intAsU32
  rw [Int.emod_eq_of_lt h0 (lt_trans h1 (by norm_num)),
      Int.emod_eq_of_lt h0 (lt_trans h1 (by norm_num))]

/-- C9: for every successful decoding call (Decoder::next or
DecoderStream::next) returning Frame::Audio, the sample view's length is
exactly `sample_count * channels` (under the engine contract: the buffer has
capacity `MAX_SAMPLES_PER_FRAME`, the engine writes at most that many values,
reports a C-int channel count, and at most a frameful of values); for every
peeking call (Decoder::peek or DecoderStream::peek) returning Frame::Audio,
the sample view is empty while `sample_count` is the engine-reported count. -/
theorem C9_sample_view_length (σ : Type) (E : Engine σ) (st : DecoderStream σ)
    (d : σ) (data : List UInt8) (buf : List Sample) :
    (st.decoder_buf.length = MAX_SAMPLES_PER_FRAME →
     (DecoderStream.nextOut E st).pcmWrite.length ≤ MAX_SAMPLES_PER_FRAME →
     0 ≤ (DecoderStream.nextOut E st).info.channels →
     (DecoderStream.nextOut E st).info.channels < (2 : Int) ^ 31 →
     intAsUsize (DecoderStream.nextOut E st).samples *
       intAsUsize (DecoderStream.nextOut E st).info.channels ≤ MAX_SAMPLES_PER_FRAME →
     ∀ sd, (DecoderStream.next E st).1 = Except.ok (Frame.Audio sd) →
       sd.samples.length = sd.sample_count * sd.channels) ∧
    (∀ sd, (DecoderStream.peek E st).1 = Except.ok (Frame.Audio sd) →
       sd.samples = [] ∧
       sd.sample_count = intAsUsize (DecoderStream.peekOut E st).samples) ∧
    (buf.length = MAX_SAMPLES_PER_FRAME →
     (E.decode_frame d (engineInput data) true).pcmWrite.length ≤ MAX_SAMPLES_PER_FRAME →
     0 ≤ (E.decode_frame d (engineInput data) true).info.channels →
     (E.decode_frame d (engineInput data) true).info.channels < (2 : Int) ^ 31 →
     intAsUsize (E.decode_frame d (engineInput data) true).samples *
       intAsUsize (E.decode_frame d (engineInput data) true).info.channels ≤
       MAX_SAMPLES_PER_FRAME →
     ∀ sd, (Decoder.next E d data buf).1 = Except.ok (Frame.Audio sd) →
       sd.samples.length = sd.sample_count * sd.channels) ∧
    (∀ sd, (Decoder.peek E d data).1 = Except.ok (Frame.Audio sd) →
       sd.samples = [] ∧
       sd.sample_count = intAsUsize (E.decode_frame d (engineInput data) false).samples) := by
  refine ⟨?_, ?_, ?_, ?_⟩
  · intro hbuf hw hch0 hch31 hpts sd h
    rw [next_fst] at h
    obtain ⟨hs, hc, hchf, _⟩ := translate_ok_audio_fields h
    have hwb : (DecoderStream.nextOut E st).pcmWrite.length ≤ st.decoder_buf.length := by
      omega
    rw [hs, hc, hchf, List.length_take, bufWrite_length hwb, hbuf,
        ← intAsUsize_eq_intAsU32 hch0 hch31]
    omega
  · intro sd h
    rw [peek_fst] at h
    obtain ⟨hs, hc, _, _⟩ := translate_ok_audio_fields h
    exact ⟨hs, hc⟩
  · intro hbuf hw hch0 hch31 hpts sd h
    rw [decoder_next_fst] at h
    obtain ⟨hs, hc, hchf, _⟩ := translate_ok_audio_fields h
    have hwb : (E.decode_frame d (engineInput data) true).pcmWrite.length ≤ buf.length := by
      omega
    rw [hs, hc, hchf, List.length_take, bufWrite_length hwb, hbuf,
        ← intAsUsize_eq_intAsU32 hch0 hch31]
    omega
  · intro sd h
    rw [decoder_peek_fst] at h
    obtain ⟨hs, hc, _, _⟩ := translate_ok_audio_fields h
    exact ⟨hs, hc⟩

theorem wStream9_buf_length : wStream9.decoder_buf.length = MAX_SAMPLES_PER_FRAME := by
  show DecoderBuf.new.length = MAX_SAMPLES_PER_FRAME
  unfold DecoderBuf.new
  exact List.length_replicate _ _

/-- C9 witness: the view-length theorem evaluated with a concrete engine on a
`MAX_SAMPLES_PER_FRAME`-capacity zeroed buffer: the decoded view `[9]` has
length `1 * 1`, and the peeked frame has an empty view with
`sample_count = 1`. -/
theorem C9_sample_view_length_witness :
    (wSd9.samples.length = wSd9.sample_count * wSd9.channels) ∧
    (wSdPeek.samples = [] ∧
     wSdPeek.sample_count = intAsUsize (DecoderStream.peekOut constFrameE wStream).samples) :=
  ⟨(C9_sample_view_length Unit constFrameE wStream9 () wSrc DecoderBuf.new).1
      wStream9_buf_length
      (by decide) (by decide) (by decide) (by decide) wSd9 (by decide),
   (C9_sample_view_length Unit constFrameE wStream () wSrc DecoderBuf.new).2.1
      wSdPeek (by decide)⟩

/-- C10 counterexample: a `DecoderStream` constructed over non-zero initial
buffer contents keeps exactly those contents — `DecoderStream::new` does not
zero-initialize its internal buffer (in the source it is
`MaybeUninit::uninit().assume_init()`). -/
theorem C10_counterexample :
    (DecoderStream.new constFrameE wSrc cexJunk).decoder_buf ≠
      List.replicate MAX_SAMPLES_PER_FRAME 0 := by
  decide

/-- C10 amended: `DecoderBuf::new` zero-initializes its buffer;
`DecoderStream::new` leaves its internal buffer uninitialized (whatever
contents it starts with are kept verbatim); nevertheless a successful
decoding `next` exposes through its sample view only values the engine wrote
during that call — never the construction-time contents — provided the engine
writes at least `sample_count * channels` values. -/
theorem C10_buffer_init (σ : Type) (E : Engine σ) (src : List UInt8)
    (junk : List Sample) :
    (DecoderBuf.new = List.replicate MAX_SAMPLES_PER_FRAME 0) ∧
    ((DecoderStream.new E src junk).decoder_buf = junk) ∧
    (∀ st : DecoderStream σ,
      intAsUsize (DecoderStream.nextOut E st).samples *
        intAsUsize (DecoderStream.nextOut E st).info.channels ≤
        (DecoderStream.nextOut E st).pcmWrite.length →
      ∀ sd, (DecoderStream.next E st).1 = Except.ok (Frame.Audio sd) →
        sd.samples = (DecoderStream.nextOut E st).pcmWrite.take
          (intAsUsize (DecoderStream.nextOut E st).samples *
           intAsUsize (DecoderStream.nextOut E st).info.channels)) := by
  refine ⟨rfl, rfl, ?_⟩
  intro st hpts sd h
  rw [next_fst] at h
  obtain ⟨hs, _, _, _⟩ := translate_ok_audio_fields h
  rw [hs]
  unfold bufWrite
  exact List.take_append_of_le_length hpts

/-- C10 witness: the amended theorem evaluated on a stream whose buffer
starts filled with junk value 7: the decoded view is `[9]`, the value the
engine wrote, and the zeroed `DecoderBuf` equation holds. -/
theorem C10_buffer_init_witness :
    (DecoderBuf.new = List.replicate MAX_SAMPLES_PER_FRAME 0) ∧
    (wSd10.samples = (DecoderStream.nextOut constFrameE wStream10).pcmWrite.take
      (intAsUsize (DecoderStream.nextOut constFrameE wStream10).samples *
       intAsUsize (DecoderStream.nextOut constFrameE wStream10).info.channels)) :=
  ⟨(C10_buffer_init Unit constFrameE wSrc wJunk).1,
   (C10_buffer_init Unit constFrameE wSrc wJunk).2.2 wStream10 (by decide) wSd10 (by decide)⟩

/-! Chain, coverage and disjointness lemmas for span lists. -/

theorem spansChain_start {a b : Nat} {spans : List (Nat × Nat)}
    (h : spansChain a b spans) (hm : ∀ p ∈ spans, p.1 ≤ p.2) :
    a ≤ b ∧ ∀ p ∈ spans, a ≤ p.1 ∧ p.2 ≤ b := by
  induction spans generalizing a with
  | nil =>
      exact ⟨le_of_eq h, by intro p hp; cases hp⟩
  | cons q rest ih =>
      obtain ⟨hq, hrest⟩ := h
      have hqm : q.1 ≤ q.2 := hm q (List.mem_cons_self q rest)
      obtain ⟨hq2b, hall⟩ := ih hrest (fun p hp => hm p (List.mem_cons_of_mem q hp))
      refine ⟨by omega, ?_⟩
      intro p hp
      rcases List.mem_cons.mp hp with hhead | htail
      · subst hhead
        exact ⟨le_of_eq hq.symm, hq2b⟩
      · obtain ⟨h1, h2⟩ := hall p htail
        exact ⟨by omega, h2⟩

theorem spansChain_pairwise {a b : Nat} {spans : List (Nat × Nat)}
    (h : spansChain a b spans) (hm : ∀ p ∈ spans, p.1 ≤ p.2) :
    List.Pairwise (fun p q => p.2 ≤ q.1) spans := by
  induction spans generalizing a with
  | nil => exact List.Pairwise.nil
  | cons q rest ih =>
      obtain ⟨hq, hrest⟩ := h
      refine List.Pairwise.cons ?_ (ih hrest (fun p hp => hm p (List.mem_cons_of_mem q hp)))
      intro p hp
      exact ((spansChain_start hrest (fun p hp => hm p (List.mem_cons_of_mem q hp))).2 p hp).1

theorem spansChain_cover {a b : Nat} {spans : List (Nat × Nat)}
    (h : spansChain a b spans) :
    ∀ k, a ≤ k → k < b → ∃ p ∈ spans, p.1 ≤ k ∧ k < p.2 := by
  induction spans generalizing a with
  | nil =>
      intro k hak hkb
      have : a = b := h
      omega
  | cons q rest ih =>
      intro k hak hkb
      obtain ⟨hq, hrest⟩ := h
      by_cases hk : k < q.2
      · exact ⟨q, List.mem_cons_self q rest, by omega, hk⟩
      · obtain ⟨p, hp, h1, h2⟩ := ih hrest k (by omega) hkb
        exact ⟨p, List.mem_cons_of_mem q hp, h1, h2⟩

/-! Bounds supplied by the §6 engine contract. -/

theorem engineInput_length_le (data : List UInt8) :
    (engineInput data).length ≤ data.length ∧
    (engineInput data).length ≤ 2 ^ 31 - 1 := by
  constructor <;> simp only [engineInput, data_len_safe, List.length_take] <;> omega

theorem nextOut_bounds {σ : Type} {E : Engine σ} (hE : E.offsetsOK) (st : DecoderStream σ) :
    intAsUsize (DecoderStream.nextOut E st).info.frame_offset ≤
      intAsUsize (DecoderStream.nextOut E st).info.frame_bytes ∧
    intAsUsize (DecoderStream.nextOut E st).info.frame_bytes ≤ st.source.length := by
  obtain ⟨h0, hob, hbl⟩ :
      (DecoderStream.nextOut E st).info.inContract (engineInput st.source).length :=
    hE st.decoder (engineInput st.source) true
  obtain ⟨hl1, hl2⟩ := engineInput_length_le st.source
  have hb0 : 0 ≤ (DecoderStream.nextOut E st).info.frame_bytes := le_trans h0 hob
  have hcast : ((engineInput st.source).length : Int) ≤ (2 : Int) ^ 31 - 1 := by
    have h31 : ((2 : Int) ^ 31 - 1) = ((2 ^ 31 - 1 : Nat) : Int) := by norm_num
    rw [h31]
    exact_mod_cast hl2
  have h64 : (DecoderStream.nextOut E st).info.frame_bytes < (2 : Int) ^ 64 := by
    have hp31 : ((2 : Int) ^ 31) = 2147483648 := by norm_num
    have hp64 : ((2 : Int) ^ 64) = 18446744073709551616 := by norm_num
    rw [hp31] at hcast
    rw [hp64]
    omega
  have heb : intAsUsize (DecoderStream.nextOut E st).info.frame_bytes =
      (DecoderStream.nextOut E st).info.frame_bytes.toNat :=
    intAsUsize_eq_toNat hb0 h64
  have heo : intAsUsize (DecoderStream.nextOut E st).info.frame_offset =
      (DecoderStream.nextOut E st).info.frame_offset.toNat :=
    intAsUsize_eq_toNat h0 (lt_of_le_of_lt hob h64)
  constructor
  · rw [heo, heb]
    exact Int.toNat_le_toNat hob
  · rw [heb]
    apply Int.toNat_le.mpr
    exact le_trans hbl (by exact_mod_cast hl1)

theorem source_length_eq {σ : Type} (st : DecoderStream σ) :
    st.source.length = st.source_copy.length - st.pos := by
  simp [DecoderStream.source]

theorem runNext_succ {σ : Type} (E : Engine σ) (fuel : Nat) (st : DecoderStream σ) :
    DecoderStream.runNext E (fuel + 1) st =
      (match DecoderStream.next E st with
       | (.ok f, st1) =>
           ((⟨st.pos, (DecoderStream.nextOut E st).info, f, st1.pos⟩ : RunStep) ::
              (DecoderStream.runNext E fuel st1).1,
            (DecoderStream.runNext E fuel st1).2)
       | (.error _, st1) => ([], st1)) := rfl

theorem runNext_spec {σ : Type} {E : Engine σ} (hE : E.offsetsOK) :
    ∀ (fuel : Nat) (st : DecoderStream σ), st.pos ≤ st.source_copy.length →
      ((DecoderStream.runNext E fuel st).2.source_copy = st.source_copy) ∧
      ((DecoderStream.runNext E fuel st).2.pos ≤ st.source_copy.length) ∧
      spansChain st.pos (DecoderStream.runNext E fuel st).2.pos
        ((DecoderStream.runNext E fuel st).1.map RunStep.span) ∧
      (∀ stp ∈ (DecoderStream.runNext E fuel st).1,
        stp.posAfter = stp.posBefore + intAsUsize stp.info.frame_bytes ∧
        stp.posAfter = stp.posBefore + Frame.bytesConsumed stp.frame ∧
        stp.posBefore + intAsUsize stp.info.frame_offset ≤ stp.posAfter ∧
        stp.posAfter ≤ st.source_copy.length ∧
        stp.frame.source = (st.source_copy.take stp.posAfter).drop
          (stp.posBefore + intAsUsize stp.info.frame_offset)) := by
  intro fuel
  induction fuel with
  | zero =>
      intro st hpos
      exact ⟨rfl, hpos, rfl, by intro stp h; cases h⟩
  | succ fuel ih =>
      intro st hpos
      cases hnx : DecoderStream.next E st with
      | mk r st1 =>
          cases r with
          | error e =>
              have h1 : (DecoderStream.next E st).1 = Except.error e := by rw [hnx]
              have hrun : DecoderStream.runNext E (fuel + 1) st = ([], st1) := by
                rw [runNext_succ, hnx]
              have hsc : st1.source_copy = st.source_copy := by
                have hx := next_snd_source_copy E st
                rw [hnx] at hx
                exact hx
              have hp : st1.pos = st.pos := by
                have hx := next_pos_of_err h1
                rw [hnx] at hx
                exact hx
              rw [hrun]
              exact ⟨hsc, by rw [hp]; exact hpos, hp.symm, by intro stp h; cases h⟩
          | ok f =>
              have h1 : (DecoderStream.next E st).1 = Except.ok f := by rw [hnx]
              have hrun : DecoderStream.runNext E (fuel + 1) st =
                  ((⟨st.pos, (DecoderStream.nextOut E st).info, f, st1.pos⟩ : RunStep) ::
                     (DecoderStream.runNext E fuel st1).1,
                   (DecoderStream.runNext E fuel st1).2) := by
                rw [runNext_succ, hnx]
              have hsc : st1.source_copy = st.source_copy := by
                have hx := next_snd_source_copy E st
                rw [hnx] at hx
                exact hx
              have hpfb : st1.pos = st.pos +
                  intAsUsize (DecoderStream.nextOut E st).info.frame_bytes := by
                have hx := next_snd_pos E st
                rw [hnx] at hx
                simpa [exceptOk] using hx
              have hpbc : st1.pos = st.pos + Frame.bytesConsumed f := by
                have hx := next_pos_of_ok h1
                rw [hnx] at hx
                exact hx
              obtain ⟨hb1, hb2⟩ := nextOut_bounds hE st
              have hsl := source_length_eq st
              have hpos1 : st1.pos ≤ st1.source_copy.length := by
                rw [hsc, hpfb]
                omega
              obtain ⟨ihsc, ihpos, ihchain, ihsteps⟩ := ih st1 hpos1
              rw [hrun]
              refine ⟨by rw [ihsc, hsc], ?_, ?_, ?_⟩
              · rw [hsc] at ihpos
                exact ihpos
              · exact ⟨rfl, ihchain⟩
              · intro stp hstp
                rcases List.mem_cons.mp hstp with hhead | htail
                · subst hhead
                  dsimp only
                  refine ⟨hpfb, hpbc, by omega, by rw [← hsc]; exact hpos1, ?_⟩
                  have hsrc : Frame.source f =
                      source_slice st.source (DecoderStream.nextOut E st).info := by
                    have hx := next_fst E st
                    rw [h1] at hx
                    exact translate_ok_source hx.symm
                  show Frame.source f = (st.source_copy.take st1.pos).drop
                      (st.pos + intAsUsize (DecoderStream.nextOut E st).info.frame_offset)
                  rw [hsrc]
                  unfold source_slice DecoderStream.source
                  rw [List.take_drop, List.drop_drop, hpfb]
                · obtain ⟨a1, a2, a3, a4, a5⟩ := ihsteps stp htail
                  rw [hsc] at a4
                  rw [hsc] at a5
                  exact ⟨a1, a2, a3, a4, a5⟩

/-- C4 counterexample: with an engine reporting one byte of leading garbage
(`frame_offset = 1`) before a decoded frame covering the whole 3-byte buffer,
the run from a fresh stream ends at position 3, but the frames' source ranges
concatenate to bytes `[11, 12]` only — byte 0 of `[0, final_position)` lies
in no source range, so the source ranges are not contiguous from 0 and do not
cover `[0, final_position)` as claimed. -/
theorem C4_counterexample :
    ((DecoderStream.runNext cexE4 3 (DecoderStream.new cexE4 cexSrc4 [])).2.position = 3) ∧
    (((DecoderStream.runNext cexE4 3 (DecoderStream.new cexE4 cexSrc4 [])).1.map
        (fun stp => Frame.source stp.frame)).flatten = [11, 12]) ∧
    (((DecoderStream.runNext cexE4 3 (DecoderStream.new cexE4 cexSrc4 [])).1.map
        (fun stp => Frame.source stp.frame)).flatten ≠
      cexSrc4.take
        (DecoderStream.runNext cexE4 3 (DecoderStream.new cexE4 cexSrc4 [])).2.position) := by
  decide

/-- C4 amended: for every input buffer and deterministic engine respecting
the §6 offset contract, repeatedly calling `next()` from a fresh stream until
the first failure produces steps whose CONSUMED spans
`[position-before, position-after)` chain from 0 to the final position —
contiguous, pairwise non-overlapping, covering exactly `[0, final_position)`
— while each frame's `source` range is the sub-range
`[position-before + frame_offset, position-after)` of its consumed span (so
the source ranges themselves cover `[0, final_position)` only when every
reported `frame_offset` is zero). -/
theorem C4_partition (σ : Type) (E : Engine σ) (src : List UInt8)
    (junk : List Sample) (fuel : Nat) (hE : E.offsetsOK) :
    spansChain 0 (DecoderStream.runNext E fuel (DecoderStream.new E src junk)).2.pos
      ((DecoderStream.runNext E fuel (DecoderStream.new E src junk)).1.map RunStep.span) ∧
    List.Pairwise (fun p q => p.2 ≤ q.1)
      ((DecoderStream.runNext E fuel (DecoderStream.new E src junk)).1.map RunStep.span) ∧
    ((DecoderStream.runNext E fuel (DecoderStream.new E src junk)).2.pos ≤ src.length) ∧
    (∀ k, k < (DecoderStream.runNext E fuel (DecoderStream.new E src junk)).2.pos →
      ∃ stp ∈ (DecoderStream.runNext E fuel (DecoderStream.new E src junk)).1,
        stp.posBefore ≤ k ∧ k < stp.posAfter) ∧
    (∀ stp ∈ (DecoderStream.runNext E fuel (DecoderStream.new E src junk)).1,
      stp.posAfter = stp.posBefore + Frame.bytesConsumed stp.frame ∧
      stp.posBefore + intAsUsize stp.info.frame_offset ≤ stp.posAfter ∧
      stp.posAfter ≤ src.length ∧
      stp.frame.source = (src.take stp.posAfter).drop
        (stp.posBefore + intAsUsize stp.info.frame_offset)) := by
  obtain ⟨hsc, hpos, hchain, hsteps⟩ :=
    runNext_spec hE fuel (DecoderStream.new E src junk) (Nat.zero_le _)
  have hm : ∀ p ∈ ((DecoderStream.runNext E fuel (DecoderStream.new E src junk)).1.map
      RunStep.span), p.1 ≤ p.2 := by
    intro p hp
    obtain ⟨stp, hstp, hps⟩ := List.mem_map.1 hp
    obtain ⟨a1, _, _, _, _⟩ := hsteps stp hstp
    rw [← hps]
    show stp.posBefore ≤ stp.posAfter
    omega
  refine ⟨hchain, spansChain_pairwise hchain hm, hpos, ?_, ?_⟩
  · intro k hk
    obtain ⟨p, hp, hk1, hk2⟩ := spansChain_cover hchain k (Nat.zero_le k) hk
    obtain ⟨stp, hstp, hps⟩ := List.mem_map.1 hp
    refine ⟨stp, hstp, ?_, ?_⟩
    · rw [← hps] at hk1
      exact hk1
    · rw [← hps] at hk2
      exact hk2
  · intro stp hstp
    obtain ⟨_, a2, a3, a4, a5⟩ := hsteps stp hstp
    exact ⟨a2, a3, a4, a5⟩

theorem boundedFrameE_offsetsOK : boundedFrameE.offsetsOK := by
  intro s input fl
  by_cases h : 2 ≤ input.length
  · have hinfo : (boundedFrameE.decode_frame s input fl).info =
        ⟨2, 0, 1, 44100, 3, 128⟩ := by
      simp [boundedFrameE, h]
    unfold mp3dec_frame_info_t.inContract
    rw [hinfo]
    refine ⟨by norm_num, by norm_num, ?_⟩
    show (2 : Int) ≤ (input.length : Int)
    exact_mod_cast h
  · have hinfo : (boundedFrameE.decode_frame s input fl).info =
        ⟨0, 0, 0, 0, 0, 0⟩ := by
      simp [boundedFrameE, h]
    unfold mp3dec_frame_info_t.inContract
    rw [hinfo]
    refine ⟨by norm_num, by norm_num, ?_⟩
    show (0 : Int) ≤ (input.length : Int)
    exact_mod_cast Nat.zero_le input.length

/-- C4 witness: the amended partition theorem evaluated for a contract
engine over a 5-byte buffer; the run consumes two 2-byte frames, chaining the
spans from 0 to the final position 4. -/
theorem C4_partition_witness :
    spansChain 0
      (DecoderStream.runNext boundedFrameE 3 (DecoderStream.new boundedFrameE cexSrc7 [])).2.pos
      ((DecoderStream.runNext boundedFrameE 3
        (DecoderStream.new boundedFrameE cexSrc7 [])).1.map RunStep.span) ∧
    ((DecoderStream.runNext boundedFrameE 3
        (DecoderStream.new boundedFrameE cexSrc7 [])).2.pos = 4) :=
  ⟨(C4_partition Unit boundedFrameE cexSrc7 [] 3 boundedFrameE_offsetsOK).1, by decide⟩

end Rmp3
